import Mathlib

/-!
Shallow embedding of `solve_qubo` from `Examples.ipynb` (iSoron/qubo-examples).

The notebook's single routine validates its arguments with two `assert`
statements, constructs one of two external sampler objects (dimod's local
`SimulatedAnnealingSampler`, or `AutoEmbeddingComposite(DWaveSampler(...))`
for the hardware backend), submits the matrix with `num_reads=k` (plus a
`chain_strength` keyword on the hardware branch, defaulting to
`int(10 * np.max(np.abs(Q)))`), and reduces the returned ensemble with
`min(response.data(["sample", "energy"]), key=lambda s: s.energy)`.

The two samplers live in external libraries, so the embedding takes them as
function parameters; the function additionally returns the list of sampler
invocations it performed, so that statements of the form "before any solver
object is constructed / any external call is made" are expressible.
-/

/-- A 2-D numpy ndarray with rational entries: a rectangular list of rows
(numeric entries are modelled as rationals). -/
structure NDArray where
  data : List (List ℚ)
deriving DecidableEq, Repr

/-- Python `Q.shape[0]`: the number of rows. -/
def NDArray.shape0 (A : NDArray) : ℕ := A.data.length

/-- Python `Q.shape[1]` of a 2-D array: the common row length. -/
def NDArray.shape1 (A : NDArray) : ℕ := (A.data.headD []).length

/-- The grid is rectangular; numpy guarantees this for every 2-D ndarray. -/
def NDArray.isRect (A : NDArray) : Bool :=
  A.data.all (fun r => r.length == A.shape1)

/-- The array is square: `Q.shape[0] == Q.shape[1]`. -/
def NDArray.isSquare (A : NDArray) : Bool := A.shape0 == A.shape1

/-- Entry `Q[i, j]`, with 0 outside the shape. -/
def NDArray.entry (A : NDArray) (i j : ℕ) : ℚ := (A.data.getD i []).getD j 0

/-- Failures of `solve_qubo`: a failed `assert` (AssertionError), or a
`ValueError` — raised by `np.max` on a zero-size array, and by Python's
`min` on an empty iterable. -/
inductive SolveError where
  | assertionError
  | valueError
deriving DecidableEq, Repr

/-- Python `np.max(np.abs(Q))` over all entries of the array (diagonal,
upper and lower triangle alike). On a zero-size array — one with no
entries at all, such as shape (0, 0) or (1, 0) — `np.max` raises
`ValueError`, modelled by the error case. -/
def npMaxAbs (A : NDArray) : Except SolveError ℚ :=
  match A.data.flatten.map (fun x => |x|) with
  | [] => .error .valueError
  | y :: ys => .ok (ys.foldl max y)

/-- Two arrays of the same shape that agree on the upper triangle,
diagonal included (entries `(i, j)` with `i ≤ j`); below the diagonal they
may differ. -/
def NDArray.upperEq (A B : NDArray) : Bool :=
  A.shape0 == B.shape0 && A.shape1 == B.shape1 &&
    (List.range A.shape0).all (fun i =>
      (List.range A.shape1).all (fun j =>
        !(decide (i ≤ j)) || decide (A.entry i j = B.entry i j)))

/-- One `(sample, energy)` record of a dimod response, as iterated by
`response.data(["sample", "energy"])`. A sample maps variable index `i` to
the value at position `i` of the list. -/
structure Datum where
  sample : List ℚ
  energy : ℚ
deriving DecidableEq, Repr

/-- Modelled from the spec: the QUBO objective
`sum over i ≤ j of x[i] * Q[i,j] * x[j]` (upper triangle, diagonal
included). The energies of a response are computed inside the external
dimod library, which is not part of this repository; the spec's data model
defines them as this objective value for the sample. -/
def quboEnergy (A : NDArray) (x : List ℚ) : ℚ :=
  ((List.range A.shape0).map (fun i =>
    (((List.range A.shape0).filter (fun j => decide (i ≤ j))).map
      (fun j => x.getD i 0 * A.entry i j * x.getD j 0)).sum)).sum

/-- The fold performed by Python's builtin `min` with a key function: the
running best is replaced only when the key is strictly smaller, so the
first minimum in iteration order wins. -/
def pyfold {α : Type} (f : α → ℚ) (best : α) : List α → α
  | [] => best
  | x :: xs => pyfold f (if f x < f best then x else best) xs

/-- Python `min(iterable, key=f)`; `none` models the `ValueError` raised on
an empty iterable. -/
def pymin {α : Type} (f : α → ℚ) : List α → Option α
  | [] => none
  | x :: xs => some (pyfold f x xs)

/-- A specification-level reduction: the minimum of the keys over the list,
then the first element of the list attaining it. Used to state the
tie-breaking behavior of the code's reduction. -/
def firstMinBy {α : Type} (f : α → ℚ) (l : List α) : Option α :=
  match (l.map f).min? with
  | none => none
  | some m => l.find? (fun x => decide (f x = m))

/-- A Python value passed as the `Q` argument; the code's
`isinstance(Q, np.ndarray)` distinguishes the first constructor from every
other Python object (a plain list of lists, or anything else). -/
inductive PyObject where
  | ndarray (a : NDArray)
  | pylist (rows : List (List ℚ))
  | pyother
deriving DecidableEq, Repr

/-- Python `isinstance(Q, np.ndarray)`. -/
def PyObject.isinstanceNdarray : PyObject → Bool
  | .ndarray _ => true
  | _ => false

/-- A record of one invocation of an external sampler: which solver object
was constructed (the backend tag), the matrix and `num_reads` submitted,
and the `chain_strength` keyword (`none` when the keyword is not passed at
all, as in the CPU branch). -/
structure SamplerCall where
  backend : String
  matrix : NDArray
  num_reads : ℕ
  chain_strength : Option ℚ
deriving DecidableEq, Repr

/-- The reduction and return of `solve_qubo`:
`min(response.data(["sample", "energy"]), key=lambda s: s.energy)` paired
with the response itself. -/
def reduceMin (response : List Datum) : Except SolveError (Datum × List Datum) :=
  match pymin Datum.energy response with
  | some solution => .ok (solution, response)
  | none => .error .valueError

/-- The chain strength the QPU branch passes on: the explicit argument when
one was supplied, otherwise `int(10 * np.max(np.abs(Q)))` — which
propagates `np.max`'s ValueError on a zero-size matrix. Python's `int(...)`
truncates toward zero, which on this nonnegative value is the floor. -/
def pyChainStrength (A : NDArray) (chain_strength : Option ℚ) :
    Except SolveError ℚ :=
  match chain_strength with
  | some c => .ok c
  | none => (npMaxAbs A).map (fun m => ((⌊(10 : ℚ) * m⌋ : ℤ) : ℚ))

/-- Shallow embedding of `solve_qubo(Q, sampler="CPU", k=10,
chain_strength=None)`, parameterized by the behaviors of the two external
samplers (`localS` for dimod's `SimulatedAnnealingSampler.sample_qubo`,
`hwS` for the hardware composite's `sample_qubo`, which also receives the
chain strength). Besides the Python return value `(solution, response)` —
or the raised error — it returns the list of sampler invocations made. -/
def solve_qubo (localS : NDArray → ℕ → List Datum)
    (hwS : NDArray → ℕ → ℚ → List Datum)
    (Q : PyObject) (sampler : String := "CPU") (k : ℕ := 10)
    (chain_strength : Option ℚ := none) :
    Except SolveError (Datum × List Datum) × List SamplerCall :=
  match Q with
  | .ndarray A =>
    if sampler = "CPU" then
      (reduceMin (localS A k), [⟨"CPU", A, k, none⟩])
    else if sampler = "QPU" then
      match pyChainStrength A chain_strength with
      | .error e => (.error e, [])
      | .ok cs =>
        (reduceMin (hwS A k cs), [⟨"QPU", A, k, some cs⟩])
    else
      (.error .assertionError, [])
  | _ => (.error .assertionError, [])

/-- A deterministic stand-in for the local sampler, used to instantiate
theorems at concrete inputs: three fixed samples, with a tie for the
minimum energy. -/
def stubLocal3 : NDArray → ℕ → List Datum :=
  fun _ _ => [⟨[0], 5⟩, ⟨[1], 5⟩, ⟨[2], 7⟩]

/-- A stand-in hardware sampler echoing the received chain strength as the
energy of its single sample. -/
def stubHwEcho : NDArray → ℕ → ℚ → List Datum :=
  fun _ _ c => [⟨[], c⟩]

/-- A stand-in local sampler honoring `num_reads`: one fixed sample per
requested read. -/
def stubLocalReads : NDArray → ℕ → List Datum :=
  fun _ k => List.replicate k ⟨[0], 1⟩

/-- A stand-in local sampler whose energies are the QUBO objective values
of its samples, as the spec's data model demands of a response. -/
def stubLocalWf : NDArray → ℕ → List Datum :=
  fun A _ => [⟨[1, 1], quboEnergy A [1, 1]⟩]

/-- A stand-in hardware sampler whose energies are the QUBO objective
values of its samples. -/
def stubHwWf : NDArray → ℕ → ℚ → List Datum :=
  fun A _ _ => [⟨[1], quboEnergy A [1]⟩]

/-- A concrete 2×2 identity-like matrix. -/
def mat2x2 : NDArray := ⟨[[1, 0], [0, 1]]⟩

/-- A concrete non-square (2×3) matrix. -/
def mat2x3 : NDArray := ⟨[[1, 2, 3], [4, 5, 6]]⟩

/-- A concrete 1×1 matrix whose single entry is 1/4, so that
`10 * max(abs(Q))` is the non-integer 5/2. -/
def matQuarter : NDArray := ⟨[[1/4]]⟩

/-- A concrete 2×2 matrix with a zero below the diagonal. -/
def matLow0 : NDArray := ⟨[[1, 2], [0, 3]]⟩

/-- The same matrix as `matLow0` on and above the diagonal, but with 50
below it. -/
def matLow50 : NDArray := ⟨[[1, 2], [50, 3]]⟩

theorem pyfold_le_init {α : Type} (f : α → ℚ) (xs : List α) :
    ∀ b, f (pyfold f b xs) ≤ f b := by
  induction xs with
  | nil => intro b; simp [pyfold]
  | cons x xs ih =>
    intro b
    simp only [pyfold]
    by_cases h : f x < f b
    · rw [if_pos h]; exact le_trans (ih x) (le_of_lt h)
    · rw [if_neg h]; exact ih b

theorem pyfold_le_mem {α : Type} (f : α → ℚ) (xs : List α) :
    ∀ b, ∀ y ∈ xs, f (pyfold f b xs) ≤ f y := by
  induction xs with
  | nil => intro b y hy; cases hy
  | cons x xs ih =>
    intro b y hy
    simp only [pyfold]
    rcases List.mem_cons.mp hy with rfl | hy
    · by_cases h : f y < f b
      · rw [if_pos h]; exact pyfold_le_init f xs y
      · rw [if_neg h]
        exact le_trans (pyfold_le_init f xs b) (not_lt.mp h)
    · by_cases h : f x < f b
      · rw [if_pos h]; exact ih x y hy
      · rw [if_neg h]; exact ih b y hy

theorem pyfold_mem {α : Type} (f : α → ℚ) (xs : List α) :
    ∀ b, pyfold f b xs = b ∨ pyfold f b xs ∈ xs := by
  induction xs with
  | nil => intro b; left; rfl
  | cons x xs ih =>
    intro b
    simp only [pyfold]
    by_cases h : f x < f b
    · rw [if_pos h]
      rcases ih x with h1 | h1
      · right; rw [h1]; exact List.mem_cons_self x xs
      · right; exact List.mem_cons_of_mem x h1
    · rw [if_neg h]
      rcases ih b with h1 | h1
      · left; exact h1
      · right; exact List.mem_cons_of_mem x h1

theorem pyfold_key_foldl_min {α : Type} (f : α → ℚ) (xs : List α) :
    ∀ b, f (pyfold f b xs) = (xs.map f).foldl min (f b) := by
  induction xs with
  | nil => intro b; rfl
  | cons x xs ih =>
    intro b
    simp only [pyfold, List.map_cons, List.foldl_cons]
    by_cases h : f x < f b
    · rw [if_pos h, ih x, min_eq_right (le_of_lt h)]
    · rw [if_neg h, ih b, min_eq_left (not_lt.mp h)]

theorem pymin_mem {α : Type} (f : α → ℚ) (l : List α) (d : α)
    (h : pymin f l = some d) : d ∈ l := by
  cases l with
  | nil => cases h
  | cons x xs =>
    obtain rfl : pyfold f x xs = d := Option.some.inj h
    rcases pyfold_mem f xs x with h1 | h1
    · rw [h1]; exact List.mem_cons_self x xs
    · exact List.mem_cons_of_mem x h1

theorem pymin_le_mem {α : Type} (f : α → ℚ) (l : List α) (d : α)
    (h : pymin f l = some d) : ∀ y ∈ l, f d ≤ f y := by
  cases l with
  | nil => cases h
  | cons x xs =>
    obtain rfl : pyfold f x xs = d := Option.some.inj h
    intro y hy
    rcases List.mem_cons.mp hy with rfl | hy
    · exact pyfold_le_init f xs y
    · exact pyfold_le_mem f xs x y hy

theorem pymin_key_min? {α : Type} (f : α → ℚ) (l : List α) (d : α)
    (h : pymin f l = some d) : (l.map f).min? = some (f d) := by
  cases l with
  | nil => cases h
  | cons x xs =>
    obtain rfl : pyfold f x xs = d := Option.some.inj h
    show some ((xs.map f).foldl min (f x)) = _
    rw [pyfold_key_foldl_min f xs x]

theorem pyfold_find_first {α : Type} (f : α → ℚ) (xs : List α) :
    ∀ b, (b :: xs).find? (fun y => decide (f y = f (pyfold f b xs))) =
      some (pyfold f b xs) := by
  induction xs with
  | nil =>
    intro b
    simp [pyfold, List.find?]
  | cons x xs ih =>
    intro b
    simp only [pyfold]
    by_cases h : f x < f b
    · simp only [if_pos h]
      have hM : f (pyfold f x xs) < f b := lt_of_le_of_lt (pyfold_le_init f xs x) h
      have hb : (decide (f b = f (pyfold f x xs))) = false := by
        simp [ne_of_gt hM]
      rw [List.find?_cons_of_neg _ (by simp [hb]), ih x]
    · simp only [if_neg h]
      by_cases hb : f b = f (pyfold f b xs)
      · have h1 : (b :: xs).find? (fun y => decide (f y = f (pyfold f b xs))) =
            some (pyfold f b xs) := ih b
        rw [List.find?_cons_of_pos _ (by simp [hb])] at h1 ⊢
        exact h1
      · have hMb : f (pyfold f b xs) < f b :=
          lt_of_le_of_ne (pyfold_le_init f xs b) (fun hc => hb hc.symm)
        have hx : f (pyfold f b xs) < f x := lt_of_lt_of_le hMb (not_lt.mp h)
        have h1 : xs.find? (fun y => decide (f y = f (pyfold f b xs))) =
            some (pyfold f b xs) := by
          have := ih b
          rwa [List.find?_cons_of_neg _ (by simp [hb])] at this
        rw [List.find?_cons_of_neg _ (by simp [ne_of_gt hMb]),
          List.find?_cons_of_neg _ (by simp [ne_of_gt hx])]
        exact h1

theorem pymin_eq_firstMinBy {α : Type} (f : α → ℚ) (l : List α) :
    pymin f l = firstMinBy f l := by
  cases l with
  | nil => rfl
  | cons x xs =>
    show some (pyfold f x xs) = firstMinBy f (x :: xs)
    unfold firstMinBy
    have hmin : ((x :: xs).map f).min? = some (f (pyfold f x xs)) := by
      show some ((xs.map f).foldl min (f x)) = _
      rw [pyfold_key_foldl_min f xs x]
    rw [hmin]
    exact (pyfold_find_first f xs x).symm

theorem pymin_of_ne_nil {α : Type} (f : α → ℚ) (l : List α) (h : l ≠ []) :
    ∃ d, pymin f l = some d := by
  cases l with
  | nil => exact absurd rfl h
  | cons x xs => exact ⟨pyfold f x xs, rfl⟩

deriving instance DecidableEq for Except

theorem reduceMin_ok_inv (response : List Datum) (sol : Datum)
    (resp : List Datum) (h : reduceMin response = .ok (sol, resp)) :
    resp = response ∧ pymin Datum.energy resp = some sol := by
  unfold reduceMin at h
  cases hp : pymin Datum.energy response with
  | none => rw [hp] at h; cases h
  | some d =>
    rw [hp] at h
    simp only [Except.ok.injEq, Prod.mk.injEq] at h
    obtain ⟨rfl, rfl⟩ := h
    exact ⟨rfl, hp⟩

theorem solve_qubo_ok_inv (localS : NDArray → ℕ → List Datum)
    (hwS : NDArray → ℕ → ℚ → List Datum) (Q : PyObject) (s : String)
    (k : ℕ) (cs : Option ℚ) (sol : Datum) (resp : List Datum)
    (calls : List SamplerCall)
    (h : solve_qubo localS hwS Q s k cs = (.ok (sol, resp), calls)) :
    ∃ A, Q = .ndarray A ∧ pymin Datum.energy resp = some sol ∧
      ((s = "CPU" ∧ resp = localS A k) ∨
        (s = "QPU" ∧ ∃ c1, pyChainStrength A cs = .ok c1 ∧
          resp = hwS A k c1)) := by
  cases Q with
  | ndarray A =>
    refine ⟨A, rfl, ?_⟩
    simp only [solve_qubo] at h
    by_cases hs : s = "CPU"
    · rw [if_pos hs] at h
      have h1 : reduceMin (localS A k) = .ok (sol, resp) :=
        (Prod.ext_iff.mp h).1
      obtain ⟨hr, hp⟩ := reduceMin_ok_inv _ _ _ h1
      exact ⟨hp, Or.inl ⟨hs, hr⟩⟩
    · rw [if_neg hs] at h
      by_cases hq : s = "QPU"
      · rw [if_pos hq] at h
        cases hcs : pyChainStrength A cs with
        | error e => rw [hcs] at h; cases (Prod.ext_iff.mp h).1
        | ok c1 =>
          rw [hcs] at h
          have h1 : reduceMin (hwS A k c1) = .ok (sol, resp) :=
            (Prod.ext_iff.mp h).1
          obtain ⟨hr, hp⟩ := reduceMin_ok_inv _ _ _ h1
          exact ⟨hp, Or.inr ⟨hq, c1, rfl, hr⟩⟩
      · rw [if_neg hq] at h
        cases (Prod.ext_iff.mp h).1
  | pylist rows => cases (Prod.ext_iff.mp h).1
  | pyother => cases (Prod.ext_iff.mp h).1

/-- C1: whenever `solve_qubo` returns a `(solution, response)` pair — any
backend, any sampler behavior, any repeat count — the solution's energy is
the minimum over the energies of the returned ensemble, and recomputing the
code's reduction over that same ensemble returns the very same solution
(the reduction is idempotent). -/
theorem solve_qubo_solution_min_energy (localS : NDArray → ℕ → List Datum)
    (hwS : NDArray → ℕ → ℚ → List Datum) (Q : PyObject) (s : String)
    (k : ℕ) (cs : Option ℚ) (sol : Datum) (resp : List Datum)
    (calls : List SamplerCall)
    (h : solve_qubo localS hwS Q s k cs = (.ok (sol, resp), calls)) :
    (resp.map Datum.energy).min? = some sol.energy ∧
      pymin Datum.energy resp = some sol := by
  obtain ⟨A, rfl, hp, _⟩ := solve_qubo_ok_inv localS hwS _ s k cs sol resp calls h
  exact ⟨pymin_key_min? Datum.energy resp sol hp, hp⟩

/-- Witness for C1 at a concrete run: the stub local sampler's ensemble
`[([0], 5), ([1], 5), ([2], 7)]` has minimum energy 5, attained by the
returned solution `([0], 5)`, and re-reducing the same ensemble returns it
again. -/
theorem solve_qubo_solution_min_energy_instance :
    (([⟨[0], 5⟩, ⟨[1], 5⟩, ⟨[2], 7⟩] : List Datum).map Datum.energy).min? =
        some (Datum.energy ⟨[0], 5⟩) ∧
      pymin Datum.energy [⟨[0], 5⟩, ⟨[1], 5⟩, ⟨[2], 7⟩] = some ⟨[0], 5⟩ :=
  solve_qubo_solution_min_energy stubLocal3 stubHwEcho (.ndarray mat2x2)
    "CPU" 3 none ⟨[0], 5⟩ [⟨[0], 5⟩, ⟨[1], 5⟩, ⟨[2], 7⟩]
    [⟨"CPU", mat2x2, 3, none⟩] (by decide)

/-- C2: if every (sample, energy) pair the external samplers return has
energy equal to the QUBO objective `sum over i ≤ j of x_i * Q[i,j] * x_j`
at its sample — as the spec's data model demands of a response — then every
pair of the ensemble returned by `solve_qubo` has that property, and the
returned solution minimizes this objective over the ensemble. -/
theorem solve_qubo_objective_min (localS : NDArray → ℕ → List Datum)
    (hwS : NDArray → ℕ → ℚ → List Datum) (A : NDArray) (s : String)
    (k : ℕ) (cs : Option ℚ) (sol : Datum) (resp : List Datum)
    (calls : List SamplerCall)
    (hL : ∀ d ∈ localS A k, d.energy = quboEnergy A d.sample)
    (hH : ∀ c : ℚ, ∀ d ∈ hwS A k c, d.energy = quboEnergy A d.sample)
    (h : solve_qubo localS hwS (.ndarray A) s k cs = (.ok (sol, resp), calls)) :
    (∀ d ∈ resp, d.energy = quboEnergy A d.sample) ∧
      ∀ d ∈ resp, quboEnergy A sol.sample ≤ quboEnergy A d.sample := by
  obtain ⟨A1, hA, hp, hcase⟩ := solve_qubo_ok_inv localS hwS _ s k cs sol resp calls h
  injection hA with hA1
  subst hA1
  have hwfr : ∀ d ∈ resp, d.energy = quboEnergy A d.sample := by
    rcases hcase with ⟨_, rfl⟩ | ⟨_, c1, _, rfl⟩
    · exact hL
    · exact hH c1
  refine ⟨hwfr, fun d hd => ?_⟩
  have hsm : sol ∈ resp := pymin_mem Datum.energy resp sol hp
  have h1 : sol.energy ≤ d.energy := pymin_le_mem Datum.energy resp sol hp d hd
  rw [← hwfr sol hsm, ← hwfr d hd]
  exact h1

/-- Witness for C2 at a concrete run: the stub sampler's singleton ensemble
is well formed by construction, and the returned solution minimizes the
objective over it. -/
theorem solve_qubo_objective_min_instance :
    (∀ d ∈ stubLocalWf mat2x2 1, d.energy = quboEnergy mat2x2 d.sample) ∧
      ∀ d ∈ stubLocalWf mat2x2 1,
        quboEnergy mat2x2 (Datum.sample ⟨[1, 1], quboEnergy mat2x2 [1, 1]⟩) ≤
          quboEnergy mat2x2 d.sample :=
  solve_qubo_objective_min stubLocalWf stubHwWf mat2x2 "CPU" 1 none
    ⟨[1, 1], quboEnergy mat2x2 [1, 1]⟩ (stubLocalWf mat2x2 1)
    [⟨"CPU", mat2x2, 1, none⟩]
    (by intro d hd; simp only [stubLocalWf, List.mem_singleton] at hd; rw [hd])
    (by intro c d hd; simp only [stubHwWf, List.mem_singleton] at hd; rw [hd])
    rfl

/-- C5: a backend selector other than "CPU" and "QPU" fails the membership
assert: the result is the assertion error, and no solver object is
constructed nor any sampler called. -/
theorem solve_qubo_bad_backend (localS : NDArray → ℕ → List Datum)
    (hwS : NDArray → ℕ → ℚ → List Datum) (Q : PyObject) (s : String)
    (k : ℕ) (cs : Option ℚ) (h1 : s ≠ "CPU") (h2 : s ≠ "QPU") :
    solve_qubo localS hwS Q s k cs = (.error .assertionError, []) := by
  cases Q <;> simp [solve_qubo, h1, h2]

/-- Witness for C5: the selector "GPU" is rejected with no sampler call. -/
theorem solve_qubo_bad_backend_instance :
    solve_qubo stubLocal3 stubHwEcho (.ndarray mat2x2) "GPU" 10 none =
      (.error .assertionError, []) :=
  solve_qubo_bad_backend stubLocal3 stubHwEcho (.ndarray mat2x2) "GPU" 10
    none (by decide) (by decide)

/-- C6: the solution returned by `solve_qubo` is the first minimum-energy
pair in ensemble order: selecting, from the returned ensemble, the first
pair whose energy equals the minimum of the energies yields exactly the
returned solution. -/
theorem solve_qubo_tie_first (localS : NDArray → ℕ → List Datum)
    (hwS : NDArray → ℕ → ℚ → List Datum) (Q : PyObject) (s : String)
    (k : ℕ) (cs : Option ℚ) (sol : Datum) (resp : List Datum)
    (calls : List SamplerCall)
    (h : solve_qubo localS hwS Q s k cs = (.ok (sol, resp), calls)) :
    firstMinBy Datum.energy resp = some sol := by
  obtain ⟨A, rfl, hp, _⟩ := solve_qubo_ok_inv localS hwS _ s k cs sol resp calls h
  rw [← pymin_eq_firstMinBy]
  exact hp

/-- Witness for C6 at a run whose ensemble has a tie at the minimum energy
5: the returned solution is the first of the two tied pairs. -/
theorem solve_qubo_tie_first_instance :
    firstMinBy Datum.energy [⟨[0], 5⟩, ⟨[1], 5⟩, ⟨[2], 7⟩] = some ⟨[0], 5⟩ :=
  solve_qubo_tie_first stubLocal3 stubHwEcho (.ndarray mat2x2) "CPU" 3 none
    ⟨[0], 5⟩ [⟨[0], 5⟩, ⟨[1], 5⟩, ⟨[2], 7⟩] [⟨"CPU", mat2x2, 3, none⟩]
    (by decide)

/-- C7: with the local backend and any repeat count k ≥ 1, provided the
external local sampler honors `num_reads` — one returned entry per
requested read, the spec's contract for it — `solve_qubo` submits
`num_reads = k` in its single sampler call and returns the sampler's
ensemble, which has exactly k entries. -/
theorem solve_qubo_local_ensemble_size (localS : NDArray → ℕ → List Datum)
    (hwS : NDArray → ℕ → ℚ → List Datum) (A : NDArray) (k : ℕ)
    (cs : Option ℚ) (hk : 1 ≤ k) (hreads : (localS A k).length = k) :
    ∃ sol resp, solve_qubo localS hwS (.ndarray A) "CPU" k cs =
      (.ok (sol, resp), [⟨"CPU", A, k, none⟩]) ∧ resp.length = k := by
  have hne : localS A k ≠ [] := by
    intro hnil
    rw [hnil] at hreads
    simp at hreads
    omega
  obtain ⟨d, hd⟩ := pymin_of_ne_nil Datum.energy (localS A k) hne
  refine ⟨d, localS A k, ?_, hreads⟩
  simp [solve_qubo, reduceMin, hd]

/-- Witness for C7 with the read-honoring stub sampler at k = 2. -/
theorem solve_qubo_local_ensemble_size_instance :
    ∃ sol resp, solve_qubo stubLocalReads stubHwEcho (.ndarray mat2x2)
      "CPU" 2 none = (.ok (sol, resp), [⟨"CPU", mat2x2, 2, none⟩]) ∧
      resp.length = 2 :=
  solve_qubo_local_ensemble_size stubLocalReads stubHwEcho mat2x2 2 none
    (by decide) (by decide)

/-- C9: with the local backend the `chain_strength` argument is dead code:
the entire outcome — solution, ensemble, and the single sampler call made,
which carries no chain-strength keyword — is identical for any two
chain-strength arguments. -/
theorem solve_qubo_local_chain_strength_unused
    (localS : NDArray → ℕ → List Datum) (hwS : NDArray → ℕ → ℚ → List Datum)
    (A : NDArray) (k : ℕ) (cs1 cs2 : Option ℚ) :
    solve_qubo localS hwS (.ndarray A) "CPU" k cs1 =
        solve_qubo localS hwS (.ndarray A) "CPU" k cs2 ∧
      (solve_qubo localS hwS (.ndarray A) "CPU" k cs1).2 =
        [⟨"CPU", A, k, none⟩] :=
  ⟨rfl, rfl⟩

/-- C10: any argument that is not a numpy ndarray — a plain list-of-lists
grid included — fails the `isinstance` assert: the assertion error is
raised and no solver object is constructed nor any sampler called. -/
theorem solve_qubo_non_ndarray (localS : NDArray → ℕ → List Datum)
    (hwS : NDArray → ℕ → ℚ → List Datum) (Q : PyObject) (s : String)
    (k : ℕ) (cs : Option ℚ) (h : Q.isinstanceNdarray = false) :
    solve_qubo localS hwS Q s k cs = (.error .assertionError, []) := by
  cases Q with
  | ndarray A => simp [PyObject.isinstanceNdarray] at h
  | pylist rows => rfl
  | pyother => rfl

/-- Witness for C10: a square numeric grid given as a Python list of lists
is rejected by the type assert with no sampler call. -/
theorem solve_qubo_non_ndarray_instance :
    solve_qubo stubLocal3 stubHwEcho (.pylist [[1, 0], [0, 1]]) "CPU" 10
      none = (.error .assertionError, []) :=
  solve_qubo_non_ndarray stubLocal3 stubHwEcho (.pylist [[1, 0], [0, 1]])
    "CPU" 10 none (by decide)

theorem reduceMin_ne_assertion (response : List Datum) :
    reduceMin response ≠ .error .assertionError := by
  unfold reduceMin
  cases pymin Datum.energy response <;> simp

/-- C3 counterexample: for the 1×1 matrix [[1/4]], whose
`max(abs(Q))` is 1/4, the hardware branch with unspecified chain strength
passes `int(10 * max(abs(Q))) = int(5/2) = 2` to the solver, which differs
from `10 * max(abs(Q)) = 10 * (1/4)`. -/
theorem solve_qubo_chain_strength_default_ne_spec :
    npMaxAbs matQuarter = .ok (1/4) ∧
      (solve_qubo stubLocal3 stubHwEcho (.ndarray matQuarter) "QPU" 1
          none).2 = [⟨"QPU", matQuarter, 1, some 2⟩] ∧
      (2 : ℚ) ≠ 10 * (1/4) := by
  have hm : npMaxAbs matQuarter = .ok (1/4) := by
    show Except.ok |(1 : ℚ)/4| = Except.ok (1/4)
    rw [abs_of_nonneg (by norm_num : (0 : ℚ) ≤ 1/4)]
  have hcs : pyChainStrength matQuarter none = .ok 2 := by
    simp only [pyChainStrength, hm, Except.map, Except.ok.injEq]
    norm_num
  refine ⟨hm, ?_, by norm_num⟩
  simp [solve_qubo, hcs]

/-- C3 amended: on the hardware backend an explicitly supplied chain
strength is passed to the solver unchanged (for every matrix); the default
computed when none is supplied — on a matrix with at least one entry, so
that `np.max` does not raise — is `int(10 * max(abs(Q)))`, the floor of
`10 * max(abs(Q))`, equal to `10 * max(abs(Q))` itself only when that
product is an integer (as it is for integer matrices). -/
theorem solve_qubo_chain_strength_passed (localS : NDArray → ℕ → List Datum)
    (hwS : NDArray → ℕ → ℚ → List Datum) (A : NDArray) (k : ℕ) (c : ℚ)
    (m : ℚ) (hm : npMaxAbs A = .ok m) :
    (solve_qubo localS hwS (.ndarray A) "QPU" k (some c)).2 =
        [⟨"QPU", A, k, some c⟩] ∧
      (solve_qubo localS hwS (.ndarray A) "QPU" k none).2 =
        [⟨"QPU", A, k, some ((⌊(10 : ℚ) * m⌋ : ℤ) : ℚ)⟩] := by
  refine ⟨rfl, ?_⟩
  have hcs : pyChainStrength A none =
      .ok ((⌊(10 : ℚ) * m⌋ : ℤ) : ℚ) := by
    simp only [pyChainStrength, hm, Except.map]
  simp [solve_qubo, hcs]

/-- Witness for the amended C3 at the concrete matrix [[1/4]]: the explicit
chain strength 7 is passed through, and the default is the floor of 5/2. -/
theorem solve_qubo_chain_strength_passed_instance :
    (solve_qubo stubLocal3 stubHwEcho (.ndarray matQuarter) "QPU" 1
        (some 7)).2 = [⟨"QPU", matQuarter, 1, some 7⟩] ∧
      (solve_qubo stubLocal3 stubHwEcho (.ndarray matQuarter) "QPU" 1
        none).2 =
        [⟨"QPU", matQuarter, 1, some ((⌊(10 : ℚ) * (1/4)⌋ : ℤ) : ℚ)⟩] :=
  solve_qubo_chain_strength_passed stubLocal3 stubHwEcho matQuarter 1 7
    (1/4) (by
      show Except.ok |(1 : ℚ)/4| = Except.ok (1/4)
      rw [abs_of_nonneg (by norm_num : (0 : ℚ) ≤ 1/4)])

/-- C4 counterexample: the non-square 2×3 matrix passes both asserts; no
input error is raised, the local solver object is constructed, and the
sampler is invoked on the non-square matrix, whose ensemble is reduced and
returned as usual. -/
theorem solve_qubo_nonsquare_not_rejected :
    mat2x3.isSquare = false ∧
      solve_qubo stubLocal3 stubHwEcho (.ndarray mat2x3) "CPU" 10 none =
        (.ok (⟨[0], 5⟩, [⟨[0], 5⟩, ⟨[1], 5⟩, ⟨[2], 7⟩]),
          [⟨"CPU", mat2x3, 10, none⟩]) := by
  exact ⟨by decide, by decide⟩

/-- C4 amended: `solve_qubo` performs no squareness validation: squareness
is never consulted. For every ndarray — square or not — both asserts pass,
and on the local backend, as well as on the hardware backend whenever the
default chain-strength computation does not itself raise (an explicit
chain strength, or a matrix with at least one entry), no error is raised
before exactly one sampler call is made with the matrix submitted
unchanged; the only pre-sampler failure on a supported backend is
`np.max`'s ValueError on a zero-size matrix with default chain strength,
which is equally indifferent to squareness. -/
theorem solve_qubo_no_squareness_validation
    (localS : NDArray → ℕ → List Datum) (hwS : NDArray → ℕ → ℚ → List Datum)
    (A : NDArray) (s : String) (k : ℕ) (cs : Option ℚ)
    (hs : s = "CPU" ∨
      (s = "QPU" ∧ ∃ c1, pyChainStrength A cs = .ok c1)) :
    (solve_qubo localS hwS (.ndarray A) s k cs).1 ≠
        .error .assertionError ∧
      ∃ cs1, (solve_qubo localS hwS (.ndarray A) s k cs).2 =
        [⟨s, A, k, cs1⟩] := by
  rcases hs with rfl | ⟨rfl, c1, hc1⟩
  · exact ⟨reduceMin_ne_assertion (localS A k), none, rfl⟩
  · have e : solve_qubo localS hwS (.ndarray A) "QPU" k cs =
        (reduceMin (hwS A k c1), [⟨"QPU", A, k, some c1⟩]) := by
      simp [solve_qubo, hc1]
    constructor
    · rw [e]
      exact reduceMin_ne_assertion (hwS A k c1)
    · exact ⟨some c1, by rw [e]⟩

/-- Witness for the amended C4 at the concrete non-square 2×3 matrix on the
local backend. -/
theorem solve_qubo_no_squareness_validation_instance :
    (solve_qubo stubLocal3 stubHwEcho (.ndarray mat2x3) "CPU" 10 none).1 ≠
        .error .assertionError ∧
      ∃ cs1, (solve_qubo stubLocal3 stubHwEcho (.ndarray mat2x3) "CPU" 10
        none).2 = [⟨"CPU", mat2x3, 10, cs1⟩] :=
  solve_qubo_no_squareness_validation stubLocal3 stubHwEcho mat2x3 "CPU" 10
    none (Or.inl rfl)

/-- C8 counterexample: `matLow0` and `matLow50` agree on the whole upper
triangle, diagonal included, and differ only below the diagonal; yet on the
hardware backend with unspecified chain strength `solve_qubo` derives chain
strength 30 from one and 500 from the other — `max(abs(Q))` reads the full
matrix — so even a sampler that never looks at the matrix receives
different arguments and the returned solutions differ. -/
theorem solve_qubo_lower_triangle_observed :
    matLow0.upperEq matLow50 = true ∧ matLow0 ≠ matLow50 ∧
      (solve_qubo stubLocal3 stubHwEcho (.ndarray matLow0) "QPU" 1 none).1 ≠
        (solve_qubo stubLocal3 stubHwEcho (.ndarray matLow50) "QPU" 1
          none).1 := by
  have hm0 : npMaxAbs matLow0 = .ok 3 := by decide
  have hm50 : npMaxAbs matLow50 = .ok 50 := by decide
  have hc0 : pyChainStrength matLow0 none = .ok 30 := by
    simp only [pyChainStrength, hm0, Except.map, Except.ok.injEq]
    norm_num
  have hc50 : pyChainStrength matLow50 none = .ok 500 := by
    simp only [pyChainStrength, hm50, Except.map, Except.ok.injEq]
    norm_num
  refine ⟨by decide, by decide, ?_⟩
  have e0 : (solve_qubo stubLocal3 stubHwEcho (.ndarray matLow0) "QPU" 1
      none).1 = .ok (⟨[], 30⟩, [⟨[], 30⟩]) := by
    simp [solve_qubo, hc0, stubHwEcho, reduceMin, pymin, pyfold]
  have e50 : (solve_qubo stubLocal3 stubHwEcho (.ndarray matLow50) "QPU" 1
      none).1 = .ok (⟨[], 500⟩, [⟨[], 500⟩]) := by
    simp [solve_qubo, hc50, stubHwEcho, reduceMin, pymin, pyfold]
  rw [e0, e50]
  decide

/-- C8 amended: below-diagonal entries are not inert in `solve_qubo` — the
default chain strength reads them (see the counterexample) — but they
carry no meaning for the solution and ensemble whenever the chain strength
does not have to be derived: if the external samplers return identical
ensembles on matrices that agree on the upper triangle, then two such
matrices produce identical Python results on the local backend with any
chain-strength argument, and on the hardware backend with an explicitly
supplied chain strength. -/
theorem solve_qubo_upper_triangle_determines
    (localS : NDArray → ℕ → List Datum) (hwS : NDArray → ℕ → ℚ → List Datum)
    (A B : NDArray) (k : ℕ) (cs : Option ℚ) (c : ℚ)
    (h : A.upperEq B = true)
    (hLresp : ∀ A1 B1 : NDArray, A1.upperEq B1 = true →
      localS A1 k = localS B1 k)
    (hHresp : ∀ (A1 B1 : NDArray) (cc : ℚ), A1.upperEq B1 = true →
      hwS A1 k cc = hwS B1 k cc) :
    (solve_qubo localS hwS (.ndarray A) "CPU" k cs).1 =
        (solve_qubo localS hwS (.ndarray B) "CPU" k cs).1 ∧
      (solve_qubo localS hwS (.ndarray A) "QPU" k (some c)).1 =
        (solve_qubo localS hwS (.ndarray B) "QPU" k (some c)).1 := by
  constructor
  · show (reduceMin (localS A k)) = (reduceMin (localS B k))
    rw [hLresp A B h]
  · show (reduceMin (hwS A k c)) = (reduceMin (hwS B k c))
    rw [hHresp A B c h]

/-- Witness for the amended C8 at `matLow0`/`matLow50` with samplers that
do not read the matrix at all (hence trivially upper-triangle
determined). -/
theorem solve_qubo_upper_triangle_determines_instance :
    (solve_qubo stubLocal3 stubHwEcho (.ndarray matLow0) "CPU" 3 none).1 =
        (solve_qubo stubLocal3 stubHwEcho (.ndarray matLow50) "CPU" 3
          none).1 ∧
      (solve_qubo stubLocal3 stubHwEcho (.ndarray matLow0) "QPU" 3
          (some 7)).1 =
        (solve_qubo stubLocal3 stubHwEcho (.ndarray matLow50) "QPU" 3
          (some 7)).1 :=
  solve_qubo_upper_triangle_determines stubLocal3 stubHwEcho matLow0
    matLow50 3 none 7 (by decide) (fun _ _ _ => rfl) (fun _ _ _ _ => rfl)
